import Mathlib

/-!
Shallow embedding of the Glimmer Discord-bot framework
(`src/command-types.ts`, `src/module.ts`, `src/index.ts`, `src/errors.ts`,
`src/events.ts`) and proofs about it.

Conventions of the embedding:
* JavaScript `Record<string, T>` objects are association lists
  (`List (String × T)`) with JS semantics: assignment to an existing key
  replaces the value in place, assignment to a fresh key appends, and
  `Object.values` enumerates in insertion order.
* An `async` handler function is abstracted to its observable behaviour: an
  identity tag plus whether invoking it rejects (throws).  Thrown exceptions
  are modelled as an explicit `Bool` component threaded by execution
  functions; `try`/`catch` is an operation on that component.
* `LocalizationMap` values and option payloads are opaque data; only their
  identity matters to the properties proved here.
* Discord.js is an external collaborator.  Its builders are modelled at their
  interface boundary as records of the data pushed into them; the
  `add*Option` family (a single mixin shared by both slash-command builder
  classes in discord.js) files each option under the platform option kind of
  the method called.
-/

namespace Glimmer

/-- Locale → localized string map (discord.js `LocalizationMap`), modelled as
an association list; only equality of whole maps is used. -/
abbrev LocalizationMap := List (String × String)

/-- `Permissions | bigint | number` permission value. -/
abbrev Permissions := Int

/-! ### JavaScript `Record<string, T>` objects -/

/-- JS `key in object` test. -/
def recHas {α : Type} (m : List (String × α)) (k : String) : Bool :=
  m.any (fun p => p.1 = k)

/-- JS `object[key] = value`: replaces in place when the key exists,
appends otherwise. -/
def recInsert {α : Type} (m : List (String × α)) (k : String) (v : α) :
    List (String × α) :=
  if recHas m k then m.map (fun p => if p.1 = k then (k, v) else p)
  else m ++ [(k, v)]

/-- JS `object[key]` lookup. -/
def recLookup {α : Type} (m : List (String × α)) (k : String) : Option α :=
  (m.find? (fun p => p.1 = k)).map (fun p => p.2)

/-- JS `Object.values(object)` in insertion order. -/
def recValues {α : Type} (m : List (String × α)) : List α :=
  m.map (fun p => p.2)

/-! ### Command options (`CommandOption` union in `command-types.ts`)

The TypeScript union `CommandOption` lists nine discord.js option classes.
`instanceof` is a runtime test, so a value that is an instance of none of the
nine classes can still reach `addOption` (through a cast or an untyped
caller); the kind `otherInstance` represents such a value. -/

/-- The runtime class of an option object, discriminated by `instanceof`. -/
inductive OptionKind where
  | boolean | user | channel | role | attachment | mentionable
  | string | integer | number
  | otherInstance
deriving DecidableEq, Repr

/-- An option object: its runtime class and an identity for its payload
(name, description, constraints — opaque here). -/
structure CommandOption where
  kind : OptionKind
  id : Nat
deriving DecidableEq, Repr

/-- The platform option kind a builder method files an option under. -/
inductive PlatformOptionKind where
  | boolean | user | channel | role | attachment | mentionable
  | string | integer | number
deriving DecidableEq, Repr

/-- The options array of a discord.js slash-command(-subcommand) builder:
each entry records the platform kind it was added under and the option. -/
abbrev OptList := List (PlatformOptionKind × CommandOption)

/-- discord.js `addBooleanOption` (shared builder mixin). -/
def addBooleanOption (b : OptList) (o : CommandOption) : OptList :=
  b ++ [(PlatformOptionKind.boolean, o)]

/-- discord.js `addUserOption`. -/
def addUserOption (b : OptList) (o : CommandOption) : OptList :=
  b ++ [(PlatformOptionKind.user, o)]

/-- discord.js `addChannelOption`. -/
def addChannelOption (b : OptList) (o : CommandOption) : OptList :=
  b ++ [(PlatformOptionKind.channel, o)]

/-- discord.js `addRoleOption`. -/
def addRoleOption (b : OptList) (o : CommandOption) : OptList :=
  b ++ [(PlatformOptionKind.role, o)]

/-- discord.js `addAttachmentOption`. -/
def addAttachmentOption (b : OptList) (o : CommandOption) : OptList :=
  b ++ [(PlatformOptionKind.attachment, o)]

/-- discord.js `addMentionableOption`. -/
def addMentionableOption (b : OptList) (o : CommandOption) : OptList :=
  b ++ [(PlatformOptionKind.mentionable, o)]

/-- discord.js `addStringOption`. -/
def addStringOption (b : OptList) (o : CommandOption) : OptList :=
  b ++ [(PlatformOptionKind.string, o)]

/-- discord.js `addIntegerOption`. -/
def addIntegerOption (b : OptList) (o : CommandOption) : OptList :=
  b ++ [(PlatformOptionKind.integer, o)]

/-- discord.js `addNumberOption`. -/
def addNumberOption (b : OptList) (o : CommandOption) : OptList :=
  b ++ [(PlatformOptionKind.number, o)]

/-- `addOption` from `command-types.ts`: an `instanceof` chain over the
eight first option classes with a catch-all `else` that calls
`addNumberOption`. -/
def addOption (b : OptList) (o : CommandOption) : OptList :=
  if o.kind = OptionKind.boolean then addBooleanOption b o
  else if o.kind = OptionKind.user then addUserOption b o
  else if o.kind = OptionKind.channel then addChannelOption b o
  else if o.kind = OptionKind.role then addRoleOption b o
  else if o.kind = OptionKind.attachment then addAttachmentOption b o
  else if o.kind = OptionKind.mentionable then addMentionableOption b o
  else if o.kind = OptionKind.string then addStringOption b o
  else if o.kind = OptionKind.integer then addIntegerOption b o
  else addNumberOption b o

/-- The platform option kind that matches an option's own runtime class
(none for an instance of no listed class).  This definition follows the
spec's words ("route each option to its matching platform option kind") and
is compared against what `addOption` actually does. -/
def matchedPlatformKind : OptionKind → Option PlatformOptionKind
  | OptionKind.boolean => some PlatformOptionKind.boolean
  | OptionKind.user => some PlatformOptionKind.user
  | OptionKind.channel => some PlatformOptionKind.channel
  | OptionKind.role => some PlatformOptionKind.role
  | OptionKind.attachment => some PlatformOptionKind.attachment
  | OptionKind.mentionable => some PlatformOptionKind.mentionable
  | OptionKind.string => some PlatformOptionKind.string
  | OptionKind.integer => some PlatformOptionKind.integer
  | OptionKind.number => some PlatformOptionKind.number
  | OptionKind.otherInstance => none

/-! ### Handlers -/

/-- Observable behaviour of an async command-handler function: which handler
object it is (`tag`) and whether invoking it rejects. -/
structure LeafHandler where
  tag : Nat
  raises : Bool
deriving DecidableEq, Repr

/-! ### Command classes (`command-types.ts`)

Optional TypeScript fields (`foo?: T`) become `Option T`; `undefined` is
`none`.  The guarded assignments of the constructors
(`if (x != undefined) this.x = x`) therefore become plain copies. -/

/-- `NormalCommand`: a chat-input command that is neither a subcommand nor a
category. -/
structure NormalCommand where
  name : String
  nameLocalizations : Option LocalizationMap
  description : String
  descriptionLocalizations : Option LocalizationMap
  options : List CommandOption
  memberPermissions : Permissions
  handler : LeafHandler
deriving DecidableEq, Repr

/-- `SubCommand`: a command nested under a category (no permissions). -/
structure SubCommand where
  name : String
  nameLocalizations : Option LocalizationMap
  description : String
  descriptionLocalizations : Option LocalizationMap
  options : List CommandOption
  handler : LeafHandler
deriving DecidableEq, Repr

/-- `CategoryCommand`: owns a `Record<string, SubCommand>`; its handler is
synthesized by the constructor (embedded below as `runCategoryHandler`). -/
structure CategoryCommand where
  name : String
  nameLocalizations : Option LocalizationMap
  description : String
  descriptionLocalizations : Option LocalizationMap
  memberPermissions : Permissions
  subcommands : List (String × SubCommand)
deriving DecidableEq, Repr

/-- `UserContextMenuCommand`: no description, no options. -/
structure UserContextMenuCommand where
  name : String
  nameLocalizations : Option LocalizationMap
  memberPermissions : Permissions
  handler : LeafHandler
deriving DecidableEq, Repr

/-- `MessageContextMenuCommand`: no description, no options. -/
structure MessageContextMenuCommand where
  name : String
  nameLocalizations : Option LocalizationMap
  memberPermissions : Permissions
  handler : LeafHandler
deriving DecidableEq, Repr

/-- `NormalCommandConstructionOptions` (optional fields as `Option`). -/
structure NormalCommandCtorOptions where
  nameLocalizations : Option LocalizationMap := none
  description : String
  descriptionLocalizations : Option LocalizationMap := none
  options : Option (List CommandOption) := none
  memberPermissions : Option Permissions := none
  handler : LeafHandler
deriving DecidableEq, Repr

/-- `SubCommandConstructionOptions`. -/
structure SubCommandCtorOptions where
  nameLocalizations : Option LocalizationMap := none
  description : String
  descriptionLocalizations : Option LocalizationMap := none
  options : Option (List CommandOption) := none
  handler : LeafHandler
deriving DecidableEq, Repr

/-- `CategoryCommandConstructionOptions` (no `options`, no `handler`). -/
structure CategoryCommandCtorOptions where
  nameLocalizations : Option LocalizationMap := none
  description : String
  descriptionLocalizations : Option LocalizationMap := none
  memberPermissions : Option Permissions := none
deriving DecidableEq, Repr

/-- The `NormalCommand` constructor: `name` starts empty (assigned later by
discovery), `memberPermissions` defaults to `0`, `options` to `[]`. -/
def NormalCommand.create (o : NormalCommandCtorOptions) : NormalCommand where
  name := ""
  nameLocalizations := o.nameLocalizations
  description := o.description
  descriptionLocalizations := o.descriptionLocalizations
  options := o.options.getD []
  memberPermissions := o.memberPermissions.getD 0
  handler := o.handler

/-- The `SubCommand` constructor. -/
def SubCommand.create (o : SubCommandCtorOptions) : SubCommand where
  name := ""
  nameLocalizations := o.nameLocalizations
  description := o.description
  descriptionLocalizations := o.descriptionLocalizations
  options := o.options.getD []
  handler := o.handler

/-- The `CategoryCommand` constructor: `subcommands` starts as the empty
record `{}`; the handler is synthesized (see `runCategoryHandler`). -/
def CategoryCommand.create (o : CategoryCommandCtorOptions) : CategoryCommand where
  name := ""
  nameLocalizations := o.nameLocalizations
  description := o.description
  descriptionLocalizations := o.descriptionLocalizations
  memberPermissions := o.memberPermissions.getD 0
  subcommands := []

/-- `NormalCommand.toSubCommand`: builds `SubCommandConstructionOptions` from
the command (permissions are dropped — the options type has no such field),
constructs a `SubCommand`, then copies the name. -/
def NormalCommand.toSubCommand (c : NormalCommand) : SubCommand :=
  let s := SubCommand.create
    { description := c.description
      handler := c.handler
      options := some c.options
      nameLocalizations := c.nameLocalizations
      descriptionLocalizations := c.descriptionLocalizations }
  { s with name := c.name }

/-- `SubCommand.toNormalCommand`: builds `NormalCommandConstructionOptions`,
setting `memberPermissions` only when the argument was supplied, constructs a
`NormalCommand` (whose constructor defaults missing permissions to `0`), then
copies the name. -/
def SubCommand.toNormalCommand (c : SubCommand)
    (memberPermissions : Option Permissions) : NormalCommand :=
  let n := NormalCommand.create
    { description := c.description
      handler := c.handler
      options := some c.options
      nameLocalizations := c.nameLocalizations
      descriptionLocalizations := c.descriptionLocalizations
      memberPermissions := memberPermissions }
  { n with name := c.name }

/-! ### discord.js declaration builders (external, modelled as records) -/

/-- `ApplicationCommandType` enumeration values of the platform API. -/
def ApplicationCommandType.ChatInput : Nat := 1

/-- `ApplicationCommandType.User` (context-menu command invoked on a user). -/
def ApplicationCommandType.User : Nat := 2

/-- `ApplicationCommandType.Message` (context-menu command invoked on a
message). -/
def ApplicationCommandType.Message : Nat := 3

/-- The data a `SlashCommandSubcommandBuilder` ends up holding. -/
structure SlashCommandSubcommandBuilder where
  name : String
  nameLocalizations : Option LocalizationMap
  description : String
  descriptionLocalizations : Option LocalizationMap
  options : OptList
deriving DecidableEq, Repr

/-- The data a `SlashCommandBuilder` ends up holding. -/
structure SlashCommandBuilder where
  name : String
  nameLocalizations : Option LocalizationMap
  description : String
  descriptionLocalizations : Option LocalizationMap
  defaultMemberPermissions : Permissions
  options : OptList
  subcommands : List SlashCommandSubcommandBuilder
deriving DecidableEq, Repr

/-- The data a `ContextMenuCommandBuilder` ends up holding. -/
structure ContextMenuCommandBuilder where
  type : Nat
  name : String
  nameLocalizations : Option LocalizationMap
  defaultMemberPermissions : Permissions
deriving DecidableEq, Repr

/-- `NormalCommand.toDiscord`: sets name, localizations, description and
permissions on a fresh `SlashCommandBuilder`, then `addOption`s every option
in order. -/
def NormalCommand.toDiscord (c : NormalCommand) : SlashCommandBuilder where
  name := c.name
  nameLocalizations := c.nameLocalizations
  description := c.description
  descriptionLocalizations := c.descriptionLocalizations
  defaultMemberPermissions := c.memberPermissions
  options := c.options.foldl addOption []
  subcommands := []

/-- `SubCommand.toDiscord`. -/
def SubCommand.toDiscord (c : SubCommand) : SlashCommandSubcommandBuilder where
  name := c.name
  nameLocalizations := c.nameLocalizations
  description := c.description
  descriptionLocalizations := c.descriptionLocalizations
  options := c.options.foldl addOption []

/-- `CategoryCommand.toDiscord`: converts every currently registered
subcommand (`Object.values`, insertion order) and embeds it. -/
def CategoryCommand.toDiscord (c : CategoryCommand) : SlashCommandBuilder where
  name := c.name
  nameLocalizations := c.nameLocalizations
  description := c.description
  descriptionLocalizations := c.descriptionLocalizations
  defaultMemberPermissions := c.memberPermissions
  options := []
  subcommands := (recValues c.subcommands).map SubCommand.toDiscord

/-- `UserContextMenuCommand.toDiscord`.  The source really does call
`.setType(Number(ApplicationCommandType.Message))` here. -/
def UserContextMenuCommand.toDiscord (c : UserContextMenuCommand) :
    ContextMenuCommandBuilder where
  type := ApplicationCommandType.Message
  name := c.name
  nameLocalizations := c.nameLocalizations
  defaultMemberPermissions := c.memberPermissions

/-- `MessageContextMenuCommand.toDiscord`. -/
def MessageContextMenuCommand.toDiscord (c : MessageContextMenuCommand) :
    ContextMenuCommandBuilder where
  type := ApplicationCommandType.Message
  name := c.name
  nameLocalizations := c.nameLocalizations
  defaultMemberPermissions := c.memberPermissions

/-! ### The runtime `Command` union -/

/-- A runtime `Command` instance: one of the five concrete subclasses. -/
inductive Cmd where
  | normal (c : NormalCommand)
  | sub (c : SubCommand)
  | category (c : CategoryCommand)
  | userMenu (c : UserContextMenuCommand)
  | messageMenu (c : MessageContextMenuCommand)
deriving DecidableEq, Repr

/-- The concrete subclass of a `Cmd` (what `instanceof` discriminates). -/
inductive CmdKind where
  | normal | sub | category | userMenu | messageMenu
deriving DecidableEq, Repr

/-- `instanceof` discrimination of a runtime command. -/
def Cmd.kindOf : Cmd → CmdKind
  | Cmd.normal _ => CmdKind.normal
  | Cmd.sub _ => CmdKind.sub
  | Cmd.category _ => CmdKind.category
  | Cmd.userMenu _ => CmdKind.userMenu
  | Cmd.messageMenu _ => CmdKind.messageMenu

/-- `command.name` read on the abstract class. -/
def Cmd.name : Cmd → String
  | Cmd.normal c => c.name
  | Cmd.sub c => c.name
  | Cmd.category c => c.name
  | Cmd.userMenu c => c.name
  | Cmd.messageMenu c => c.name

/-- `command.name = n` assignment on the abstract class. -/
def Cmd.withName : Cmd → String → Cmd
  | Cmd.normal c, n => Cmd.normal { c with name := n }
  | Cmd.sub c, n => Cmd.sub { c with name := n }
  | Cmd.category c, n => Cmd.category { c with name := n }
  | Cmd.userMenu c, n => Cmd.userMenu { c with name := n }
  | Cmd.messageMenu c, n => Cmd.messageMenu { c with name := n }

/-! ### Event handlers (`events.ts`) -/

/-- A Glimmer `EventHandler`: a platform event identifier paired with a
callback (abstracted to its tag). -/
structure EventHandler where
  eventType : String
  tag : Nat
deriving DecidableEq, Repr

/-! ### Discovery (`module.ts`) -/

/-- `path.parse(file).name`: the base name with its final extension
stripped; a leading dot (hidden file) does not start an extension. -/
def stripExt (s : String) : String :=
  let cs := s.toList
  let r := cs.reverse.indexOf '.'
  if r ≥ cs.length then s
  else if cs.length - 1 - r = 0 then s
  else String.mk (cs.take (cs.length - 1 - r))

/-- The value obtained by `import(file)` and reading its default export. -/
inductive JSValue where
  | commandV (c : Cmd)
  | eventHandlerV (h : EventHandler)
  | otherV
deriving DecidableEq, Repr

/-- A directory entry as returned by `readdir`: a module file with its
default export, or a subdirectory with its own entries. -/
inductive FSEntry where
  | file (name : String) (defaultExport : JSValue)
  | dir (name : String) (entries : List FSEntry)

/-- The name component of a directory entry. -/
def FSEntry.entryName : FSEntry → String
  | FSEntry.file n _ => n
  | FSEntry.dir n _ => n

/-- JS `String.prototype.endsWith`, implemented structurally over the
character list (the core `String.endsWith` is defined by well-founded
recursion over byte positions which does not reduce definitionally). -/
def strEndsWith (s suffix : String) : Bool :=
  suffix.toList.isSuffixOf s.toList

/-- The `.js`-suffix filter applied to `readdir` results. -/
def jsFilter (entries : List FSEntry) : List FSEntry :=
  entries.filter (fun e => strEndsWith e.entryName ".js")

/-- Resolving `readdir(path.join(dir, name))` against the entries of `dir`:
a subdirectory of that name yields its entries; a plain file of that name, or
no entry at all, makes the read fail (`none`). -/
def findDir : List FSEntry → String → Option (List FSEntry)
  | [], _ => none
  | FSEntry.file f _ :: rest, n => if f = n then none else findDir rest n
  | FSEntry.dir d es :: rest, n => if d = n then some es else findDir rest n

/-- The errors `Module.fromDirectory` can reject with.  Every constructor
carries the offending file or directory, as the source's messages do. -/
inductive DiscoveryError where
  /-- `wrongExportMessage file requiredType`: the default export is not an
  instance of the required Glimmer class. -/
  | wrongExport (file : String) (requiredType : String)
  /-- The `readdir` of a category's subcommand directory failed (caught and
  rethrown as `TypeError "Couldn't read subcommands in <dir>"`). -/
  | subdirReadFailed (dir : String)
  /-- A top-level `readdir` (commands or events area) failed; the raw
  filesystem error propagates. -/
  | dirReadFailed (dir : String)
  /-- `import()` was called on a directory path (subcommand enumeration does
  not filter out directories), which rejects. -/
  | dirImport (file : String)
  /-- The event handler's declared identifier differs from the file's base
  name. -/
  | eventTypeMismatch (file : String) (eventType : String) (fileName : String)
deriving DecidableEq, Repr

/-- `true` exactly on `Except.error`. -/
def isErr {ε α : Type} : Except ε α → Bool
  | Except.error _ => true
  | Except.ok _ => false

/-- `findDir` only ever returns a strict subtree; this supports the
termination of `fileToCommand` below. -/
def findDir_sizeOf {es : List FSEntry} {n : String} {sub : List FSEntry}
    (h : findDir es n = some sub) : sizeOf sub < sizeOf es := by
  induction es with
  | nil => simp [findDir] at h
  | cons e rest ih =>
    cases e with
    | file f v =>
      rw [findDir] at h
      split at h
      · exact absurd h (by simp)
      · have := ih h
        simp only [List.cons.sizeOf_spec]
        omega
    | dir d des =>
      rw [findDir] at h
      split at h
      · cases h
        simp only [List.cons.sizeOf_spec, FSEntry.dir.sizeOf_spec]
        omega
      · have := ih h
        simp only [List.cons.sizeOf_spec]
        omega

mutual

/-- `fileToCommand` from `Module.fromDirectory`: loads the file's default
export, requires a `Command` instance, assigns the name from the file's base
name, and — for a `CategoryCommand` — reads the same-named sibling
subdirectory and loads every entry in it as a `SubCommand`, keying the
category's `subcommands` record by each subcommand's (file-derived) name.
`ctx` is the list of sibling entries of the file (the containing
directory's contents), used to resolve the category subdirectory. -/
def fileToCommand (ctx : List FSEntry) (fileName : String) (exp : JSValue) :
    Except DiscoveryError Cmd :=
  match exp with
  | JSValue.commandV c =>
    let c := c.withName (stripExt fileName)
    match c with
    | Cmd.category cat =>
      match h : findDir ctx (stripExt fileName) with
      | none => Except.error (DiscoveryError.subdirReadFailed (stripExt fileName))
      | some sub =>
        match subcommandLoop sub sub cat.subcommands with
        | Except.error e => Except.error e
        | Except.ok subs => Except.ok (Cmd.category { cat with subcommands := subs })
    | c => Except.ok c
  | JSValue.eventHandlerV _ =>
    Except.error (DiscoveryError.wrongExport fileName "Command")
  | JSValue.otherV =>
    Except.error (DiscoveryError.wrongExport fileName "Command")
termination_by (sizeOf ctx, 0, 0)
decreasing_by
  exact Prod.Lex.left _ _ (findDir_sizeOf h)

/-- The `Promise.all` over a category subdirectory's entries (sequentialised
in directory order): each entry is loaded with `fileToCommand` (a directory
entry makes `import()` reject), required to be a `SubCommand`, and written
into the category's `subcommands` record under its name. -/
def subcommandLoop (ctx : List FSEntry) (remaining : List FSEntry)
    (acc : List (String × SubCommand)) :
    Except DiscoveryError (List (String × SubCommand)) :=
  match remaining with
  | [] => Except.ok acc
  | FSEntry.dir d _ :: _ => Except.error (DiscoveryError.dirImport d)
  | FSEntry.file f v :: rest =>
    match fileToCommand ctx f v with
    | Except.error e => Except.error e
    | Except.ok (Cmd.sub s) => subcommandLoop ctx rest (recInsert acc s.name s)
    | Except.ok _ => Except.error (DiscoveryError.wrongExport f "SubCommand")
termination_by (sizeOf ctx, 1, sizeOf remaining)
decreasing_by
  · apply Prod.Lex.right
    apply Prod.Lex.left
    omega
  · apply Prod.Lex.right
    apply Prod.Lex.right
    simp only [List.cons.sizeOf_spec]
    omega

end

/-- The `Promise.all` over one command area's (filtered) files,
sequentialised in directory order. -/
def commandLoop (ctx : List FSEntry) : List FSEntry →
    Except DiscoveryError (List Cmd)
  | [] => Except.ok []
  | FSEntry.dir d _ :: _ => Except.error (DiscoveryError.dirImport d)
  | FSEntry.file f v :: rest =>
    match fileToCommand ctx f v with
    | Except.error e => Except.error e
    | Except.ok c =>
      match commandLoop ctx rest with
      | Except.error e => Except.error e
      | Except.ok cs => Except.ok (c :: cs)

/-- `getCommandsFromSubdirectory`: `readdir` the area (failure propagates
uncaught), keep the `.js` entries, and load each with `fileToCommand`. -/
def getCommandsFromSubdirectory (area : Option (List FSEntry))
    (areaName : String) : Except DiscoveryError (List Cmd) :=
  match area with
  | none => Except.error (DiscoveryError.dirReadFailed areaName)
  | some es => commandLoop es (jsFilter es)

/-- `fileToEventHandler`: requires an `EventHandler` default export whose
declared event identifier equals the file's base name. -/
def fileToEventHandler (fileName : String) (exp : JSValue) :
    Except DiscoveryError EventHandler :=
  match exp with
  | JSValue.eventHandlerV h =>
    if h.eventType ≠ stripExt fileName then
      Except.error
        (DiscoveryError.eventTypeMismatch fileName h.eventType (stripExt fileName))
    else Except.ok h
  | _ => Except.error (DiscoveryError.wrongExport fileName "EventHandler")

/-- The `Promise.all` over the events area's (filtered) files. -/
def eventLoop : List FSEntry → Except DiscoveryError (List EventHandler)
  | [] => Except.ok []
  | FSEntry.dir d _ :: _ => Except.error (DiscoveryError.dirImport d)
  | FSEntry.file f v :: rest =>
    match fileToEventHandler f v with
    | Except.error e => Except.error e
    | Except.ok h =>
      match eventLoop rest with
      | Except.error e => Except.error e
      | Except.ok hs => Except.ok (h :: hs)

/-- A Glimmer `Module`: commands (subcommands only inside their category)
plus event handlers. -/
structure Module where
  commands : List Cmd
  events : List EventHandler
deriving DecidableEq, Repr

/-- The root directory handed to `Module.fromDirectory`: the contents of its
`commands/text-input`, `commands/message-menu`, `commands/user-menu` and
`events` areas (`none` = that `readdir` fails). -/
structure FSRoot where
  textInput : Option (List FSEntry)
  messageMenu : Option (List FSEntry)
  userMenu : Option (List FSEntry)
  events : Option (List FSEntry)

/-- `Module.fromDirectory`: loads the three command areas (their
`Promise.all` sequentialised in the source's order), then the events area,
and returns the assembled `Module`; any failure rejects the whole call. -/
def Module.fromDirectory (fs : FSRoot) : Except DiscoveryError Module :=
  match getCommandsFromSubdirectory fs.textInput "commands/text-input" with
  | Except.error e => Except.error e
  | Except.ok textCmds =>
    match getCommandsFromSubdirectory fs.messageMenu "commands/message-menu" with
    | Except.error e => Except.error e
    | Except.ok msgCmds =>
      match getCommandsFromSubdirectory fs.userMenu "commands/user-menu" with
      | Except.error e => Except.error e
      | Except.ok userCmds =>
        match (match fs.events with
          | none => Except.error (DiscoveryError.dirReadFailed "events")
          | some es => eventLoop (jsFilter es)) with
        | Except.error e => Except.error e
        | Except.ok evs =>
          Except.ok { commands := textCmds ++ msgCmds ++ userCmds, events := evs }

/-! ### Registry & dispatcher (`index.ts`, `errors.ts`)

Execution of handlers and of the dispatcher is modelled as a pure function
returning the list of observable effects together with a `Bool` that is
`true` when the computation throws (an async rejection); `try`/`catch`
becomes an operation on that `Bool`. -/

/-- The interaction kinds the `interactionCreate` listener discriminates
(`otherKind` stands for any other interaction, e.g. an autocomplete, for
which the listener's `if` chain has no branch). -/
inductive InteractionKind where
  | chatInput | userMenu | messageMenu | otherKind
deriving DecidableEq, Repr

/-- An inbound interaction: its kind, its `commandName`, and — for
chat-input interactions — the selected subcommand name, if any
(`options.getSubcommand(true)` throws when there is none). -/
structure Interaction where
  kind : InteractionKind
  commandName : String
  subcommandName : Option String
deriving DecidableEq, Repr

/-- A `GlimmerError` (`errors.ts`): carries the failing command and the
interaction. -/
structure GlimmerError where
  command : Cmd
  interaction : Interaction
deriving DecidableEq, Repr

/-- An observable effect of registration or dispatch. -/
inductive Effect where
  /-- A `console.warn` line. -/
  | warn (message : String)
  /-- A handler function (identified by its tag) was invoked with the
  interaction. -/
  | invoked (tag : Nat) (i : Interaction)
  /-- The configured error handler was called with a `GlimmerError`. -/
  | errorHandled (e : GlimmerError)
  /-- `client.on(eventType, handler)` was called. -/
  | subscribed (eventType : String) (tag : Nat)
deriving DecidableEq, Repr

/-- A command storable in the text-input table
(`Record<string, NormalCommand | CategoryCommand>`). -/
inductive TextCmd where
  | normal (c : NormalCommand)
  | category (c : CategoryCommand)
deriving DecidableEq, Repr

/-- `name` of a text-input table entry. -/
def TextCmd.name : TextCmd → String
  | TextCmd.normal c => c.name
  | TextCmd.category c => c.name

/-- Injection of a text-input table entry into the runtime command union. -/
def TextCmd.toCmd : TextCmd → Cmd
  | TextCmd.normal c => Cmd.normal c
  | TextCmd.category c => Cmd.category c

/-- The state of a `Glimmer` instance that the claims concern: the three
name-keyed registry tables and whether an error handler was supplied at
construction.  (Token, application id and the wrapped client are external
and carry no registry state.) -/
structure Glimmer where
  textInputCommands : List (String × TextCmd)
  userContextMenuCommands : List (String × UserContextMenuCommand)
  messageContextMenuCommands : List (String × MessageContextMenuCommand)
  hasErrorHandler : Bool
deriving DecidableEq, Repr

/-- Invoking a stored handler function: it runs (observably) and rejects
exactly when its behaviour says so. -/
def runLeaf (h : LeafHandler) (i : Interaction) : List Effect × Bool :=
  ([Effect.invoked h.tag i], h.raises)

/-- The warning the synthesized category handler prints when the selected
subcommand has no entry. -/
def categoryMissWarning (sub : String) (catName : String) : String :=
  s!"Subcommand \"{sub}\" was called but category \"{catName}\" has no handlers for it."

/-- The handler the `CategoryCommand` constructor synthesizes: reads the
selected subcommand name (`getSubcommand(true)` throws when absent — the
`true` argument makes it required), looks it up in the category's *current*
`subcommands` record, warns and does nothing when absent, and delegates
otherwise (a rejection of the delegate propagates). -/
def runCategoryHandler (cat : CategoryCommand) (i : Interaction) :
    List Effect × Bool :=
  match i.subcommandName with
  | none => ([], true)
  | some sub =>
    match recLookup cat.subcommands sub with
    | none => ([Effect.warn (categoryMissWarning sub cat.name)], false)
    | some s => runLeaf s.handler i

/-- `await command.handler(interaction)` for each concrete command class
(for a category this is the synthesized handler). -/
def runCmd (c : Cmd) (i : Interaction) : List Effect × Bool :=
  match c with
  | Cmd.normal c => runLeaf c.handler i
  | Cmd.sub c => runLeaf c.handler i
  | Cmd.category c => runCategoryHandler c i
  | Cmd.userMenu c => runLeaf c.handler i
  | Cmd.messageMenu c => runLeaf c.handler i

/-- `Glimmer.#handleCommand`: `try { await command.handler(interaction) }`
`catch { this.#errorHandler?.(new GlimmerError({ command, interaction })) }`.
The rejection is caught unconditionally; the error handler, when configured,
is called with the failing command and the interaction. -/
def handleCommand (g : Glimmer) (c : Cmd) (i : Interaction) :
    List Effect × Bool :=
  let r := runCmd c i
  (r.1 ++
    (if r.2 then
      (if g.hasErrorHandler then [Effect.errorHandled ⟨c, i⟩] else [])
    else []),
    false)

/-- The table lookup the `interactionCreate` listener performs for an
interaction. -/
def lookupFor (g : Glimmer) (i : Interaction) : Option Cmd :=
  match i.kind with
  | InteractionKind.chatInput =>
    (recLookup g.textInputCommands i.commandName).map TextCmd.toCmd
  | InteractionKind.userMenu =>
    (recLookup g.userContextMenuCommands i.commandName).map Cmd.userMenu
  | InteractionKind.messageMenu =>
    (recLookup g.messageContextMenuCommands i.commandName).map Cmd.messageMenu
  | InteractionKind.otherKind => none

/-- The warning the listener prints on a routing miss for each interaction
kind. -/
def missWarning (i : Interaction) : String :=
  let n := i.commandName
  match i.kind with
  | InteractionKind.chatInput =>
    s!"Received a \"{n}\" chat input command, but there is no handler for it."
  | InteractionKind.userMenu =>
    s!"Received a \"{n}\" user context menu command, but there is no handler for it."
  | InteractionKind.messageMenu =>
    s!"Received a \"{n}\" message context menu command, but there is no handler for it."
  | InteractionKind.otherKind => ""

/-- The `interactionCreate` listener: classifies the interaction, looks up
the command in the matching table, warns on a miss, and otherwise hands the
command to `handleCommand`.  The listener never writes the tables, so the
returned state equals the input state. -/
def dispatch (g : Glimmer) (i : Interaction) :
    Glimmer × List Effect × Bool :=
  match lookupFor g i with
  | none =>
    match i.kind with
    | InteractionKind.otherKind => (g, [], false)
    | _ => (g, [Effect.warn (missWarning i)], false)
  | some c => (g, handleCommand g c i)

/-- Dispatching a sequence of inbound interactions, threading the state. -/
def dispatchAll (g : Glimmer) : List Interaction → Glimmer × List Effect
  | [] => (g, [])
  | i :: rest =>
    let r := dispatch g i
    let r' := dispatchAll r.1 rest
    (r'.1, r.2.1 ++ r'.2)

/-- The collision warning for the text-input table. -/
def overrideWarnText (name : String) : String :=
  s!"Overriding text input command \"{name}\""

/-- The collision warning for both context-menu tables (the source prints
"message context menu command" in the user-menu branch as well). -/
def overrideWarnMenu (name : String) : String :=
  s!"Overriding message context menu command \"{name}\""

/-- Registration of one command from a module (`Glimmer.addModules` body):
`instanceof` classification into the matching table, a warning on name
collision (later registration wins), and silence for any other concrete
class (a bare `SubCommand` matches no branch). -/
def addCommand (g : Glimmer) (c : Cmd) : Glimmer × List Effect :=
  match c with
  | Cmd.normal n =>
    ({ g with textInputCommands := recInsert g.textInputCommands n.name (TextCmd.normal n) },
      if recHas g.textInputCommands n.name then
        [Effect.warn (overrideWarnText n.name)]
      else [])
  | Cmd.category cat =>
    ({ g with textInputCommands := recInsert g.textInputCommands cat.name (TextCmd.category cat) },
      if recHas g.textInputCommands cat.name then
        [Effect.warn (overrideWarnText cat.name)]
      else [])
  | Cmd.messageMenu m =>
    ({ g with messageContextMenuCommands := recInsert g.messageContextMenuCommands m.name m },
      if recHas g.messageContextMenuCommands m.name then
        [Effect.warn (overrideWarnMenu m.name)]
      else [])
  | Cmd.userMenu u =>
    ({ g with userContextMenuCommands := recInsert g.userContextMenuCommands u.name u },
      if recHas g.userContextMenuCommands u.name then
        [Effect.warn (overrideWarnMenu u.name)]
      else [])
  | Cmd.sub _ => (g, [])

/-- Registration of a module's command list, in order. -/
def addCommands (g : Glimmer) : List Cmd → Glimmer × List Effect
  | [] => (g, [])
  | c :: rest =>
    let r := addCommand g c
    let r' := addCommands r.1 rest
    (r'.1, r.2 ++ r'.2)

/-- `Glimmer.addModules` for one module: register its commands, then
subscribe each event handler on the client. -/
def addModule (g : Glimmer) (m : Module) : Glimmer × List Effect :=
  let r := addCommands g m.commands
  (r.1, r.2 ++ m.events.map (fun ev => Effect.subscribed ev.eventType ev.tag))

/-- `Glimmer.addModules(...modules)`. -/
def addModules (g : Glimmer) : List Module → Glimmer × List Effect
  | [] => (g, [])
  | m :: rest =>
    let r := addModule g m
    let r' := addModules r.1 rest
    (r'.1, r.2 ++ r'.2)

/-! ### Malformation predicates

These predicates spell out the malformation categories named by the spec's
failure policy ("a file whose default export is not a Command instance, a
subcommand file whose export is not a SubCommand, a category with a missing
subcommand subdirectory, an event-handler file whose declared event
identifier differs from the file's base name"); they are the hypothesis of
the all-or-nothing theorem about `Module.fromDirectory`. -/

/-- A subcommand-directory entry whose export is not a `SubCommand`. -/
def subEntryBad : FSEntry → Bool
  | FSEntry.file _ (JSValue.commandV (Cmd.sub _)) => false
  | FSEntry.file _ _ => true
  | FSEntry.dir _ _ => false

/-- A commands-area file that is malformed in one of the spec's senses:
its export is not a `Command` instance, or it is a category whose
subcommand subdirectory is missing or holds a non-`SubCommand` file. -/
def entryMalformed (ctx : List FSEntry) : FSEntry → Bool
  | FSEntry.dir _ _ => false
  | FSEntry.file f v =>
    match v with
    | JSValue.commandV (Cmd.category _) =>
      match findDir ctx (stripExt f) with
      | none => true
      | some sub => sub.any subEntryBad
    | JSValue.commandV _ => false
    | _ => true

/-- An events-area file whose `EventHandler` declares an event identifier
different from the file's base name. -/
def eventEntryBad : FSEntry → Bool
  | FSEntry.file f (JSValue.eventHandlerV h) => h.eventType != stripExt f
  | _ => false

/-- One of the three command areas contains a malformed `.js` file. -/
def commandsAreaMalformed : Option (List FSEntry) → Bool
  | none => false
  | some es => (jsFilter es).any (entryMalformed es)

/-- The events area contains a mismatched event-handler `.js` file. -/
def eventsAreaMalformed : Option (List FSEntry) → Bool
  | none => false
  | some es => (jsFilter es).any eventEntryBad

/-- The root directory contains at least one malformed file in the sense of
the spec's failure policy. -/
def malformedRoot (fs : FSRoot) : Bool :=
  commandsAreaMalformed fs.textInput || commandsAreaMalformed fs.messageMenu ||
    commandsAreaMalformed fs.userMenu || eventsAreaMalformed fs.events

/-! ### Concrete sample values used by the witness theorems -/

/-- Sample subcommand (for the category-mapping witness). -/
def subC10 : SubCommand :=
  { name := "kick", nameLocalizations := none, description := "kick a member",
    descriptionLocalizations := none, options := [], handler := ⟨21, false⟩ }

/-- Sample category constructed with an empty subcommand mapping. -/
def catC10 : CategoryCommand :=
  { name := "mod", nameLocalizations := none, description := "moderation",
    descriptionLocalizations := none, memberPermissions := 8, subcommands := [] }

/-- Sample interaction selecting subcommand `kick`. -/
def iC10 : Interaction := ⟨InteractionKind.chatInput, "mod", some "kick"⟩

/-- Sample command whose handler rejects. -/
def cmdC3normal : NormalCommand :=
  { name := "boom", nameLocalizations := none, description := "fails",
    descriptionLocalizations := none, options := [], memberPermissions := 0,
    handler := ⟨7, true⟩ }

/-- Sample registry with the rejecting command and an error handler. -/
def gC3 : Glimmer := ⟨[("boom", TextCmd.normal cmdC3normal)], [], [], true⟩

/-- Sample interaction hitting the rejecting command. -/
def iC3 : Interaction := ⟨InteractionKind.chatInput, "boom", none⟩

/-- A subsequent unrelated interaction. -/
def iC3b : Interaction := ⟨InteractionKind.chatInput, "other", none⟩

/-- The rejecting command as a runtime command value. -/
def cmdC3 : Cmd := Cmd.normal cmdC3normal

/-- Sample empty registry. -/
def gC4 : Glimmer := ⟨[], [], [], false⟩

/-- Sample interaction whose command name is unregistered. -/
def iC4 : Interaction := ⟨InteractionKind.chatInput, "ghost", none⟩

/-- Sample category with no subcommand entries. -/
def catC4 : CategoryCommand :=
  { name := "mod", nameLocalizations := none, description := "m",
    descriptionLocalizations := none, memberPermissions := 0, subcommands := [] }

/-- Sample interaction selecting a subcommand the category lacks. -/
def iC4b : Interaction := ⟨InteractionKind.chatInput, "mod", some "ban"⟩

/-- Sample root whose events area holds a handler for `messageCreate`
stored in a file named `ready.js`. -/
def fsC5 : FSRoot :=
  ⟨some [], some [], some [],
    some [FSEntry.file "ready.js" (JSValue.eventHandlerV ⟨"messageCreate", 3⟩)]⟩

/-- Sample default export carrying a pre-set (author-chosen) name. -/
def expC6 : JSValue :=
  JSValue.commandV (Cmd.normal
    { name := "sneaky", nameLocalizations := none, description := "p",
      descriptionLocalizations := none, options := [], memberPermissions := 0,
      handler := ⟨11, false⟩ })

/-- The command discovery produces for `expC6` in a file `ping.js`. -/
def cmdC6 : Cmd :=
  Cmd.normal
    { name := "ping", nameLocalizations := none, description := "p",
      descriptionLocalizations := none, options := [], memberPermissions := 0,
      handler := ⟨11, false⟩ }

/-- Sample empty registry for the override witness. -/
def gC7 : Glimmer := ⟨[], [], [], false⟩

/-- First module's `greet` command. -/
def cmdC7a : TextCmd :=
  TextCmd.normal
    { name := "greet", nameLocalizations := none, description := "v1",
      descriptionLocalizations := none, options := [], memberPermissions := 0,
      handler := ⟨1, false⟩ }

/-- Second module's `greet` command. -/
def cmdC7b : TextCmd :=
  TextCmd.normal
    { name := "greet", nameLocalizations := none, description := "v2",
      descriptionLocalizations := none, options := [], memberPermissions := 0,
      handler := ⟨2, false⟩ }

/-- First module's `profile` user-menu command. -/
def userC7a : UserContextMenuCommand := { name := "profile", nameLocalizations := none, memberPermissions := 0, handler := ⟨3, false⟩ }

/-- Second module's `profile` user-menu command. -/
def userC7b : UserContextMenuCommand := { name := "profile", nameLocalizations := none, memberPermissions := 0, handler := ⟨4, false⟩ }

/-- First module's `report` message-menu command. -/
def msgC7a : MessageContextMenuCommand := { name := "report", nameLocalizations := none, memberPermissions := 0, handler := ⟨5, false⟩ }

/-- Second module's `report` message-menu command. -/
def msgC7b : MessageContextMenuCommand := { name := "report", nameLocalizations := none, memberPermissions := 0, handler := ⟨6, false⟩ }

end Glimmer

namespace Glimmer

/-! ## Helper lemmas about the JS record embedding -/

theorem recHas_cons {α : Type} (p : String × α) (rest : List (String × α))
    (k : String) : recHas (p :: rest) k = (decide (p.1 = k) || recHas rest k) := by
  simp [recHas]

theorem recLookup_cons {α : Type} (p : String × α) (rest : List (String × α))
    (k : String) :
    recLookup (p :: rest) k = if p.1 = k then some p.2 else recLookup rest k := by
  by_cases hp : p.1 = k <;> simp [recLookup, hp]

theorem recHas_eq_isSome {α : Type} (m : List (String × α)) (k : String) :
    recHas m k = (recLookup m k).isSome := by
  induction m with
  | nil => rfl
  | cons p rest ih =>
    rw [recHas_cons, recLookup_cons]
    by_cases hp : p.1 = k <;> simp [hp, ih]

theorem recLookup_map_self {α : Type} (m : List (String × α)) (k : String)
    (v : α) (h : recHas m k = true) :
    recLookup (m.map (fun p => if p.1 = k then (k, v) else p)) k = some v := by
  induction m with
  | nil => simp [recHas] at h
  | cons p rest ih =>
    rw [recHas_cons] at h
    by_cases hp : p.1 = k
    · simp [hp, recLookup_cons]
    · have h' : recHas rest k = true := by simpa [hp] using h
      simpa [hp, recLookup_cons] using ih h'

theorem recLookup_append_self {α : Type} (m : List (String × α))
    (k : String) (v : α) :
    recLookup (m ++ [(k, v)]) k = some ((recLookup m k).getD v) := by
  induction m with
  | nil => simp [recLookup]
  | cons p rest ih =>
    rw [List.cons_append, recLookup_cons, recLookup_cons]
    by_cases hp : p.1 = k <;> simp [hp, ih]

theorem recLookup_recInsert_self {α : Type} (m : List (String × α))
    (k : String) (v : α) :
    recLookup (recInsert m k v) k = some v := by
  unfold recInsert
  by_cases h : recHas m k = true
  · simpa [h] using recLookup_map_self m k v h
  · have h0 : recHas m k = false := by simpa using h
    have h2 : recLookup m k = none := by
      have h1 := recHas_eq_isSome m k
      rw [h0] at h1
      cases hm : recLookup m k
      · rfl
      · rw [hm] at h1; simp at h1
    simp [h0, recLookup_append_self, h2]

theorem recLookup_map_ne {α : Type} (m : List (String × α)) (k k' : String)
    (v : α) (h : k ≠ k') :
    recLookup (m.map (fun p => if p.1 = k' then (k', v) else p)) k
      = recLookup m k := by
  have hk'k : ¬ k' = k := fun e => h e.symm
  induction m with
  | nil => rfl
  | cons p rest ih =>
    by_cases hp : p.1 = k'
    · have hpk : ¬ p.1 = k := by rw [hp]; exact hk'k
      simp only [List.map_cons, if_pos hp, recLookup_cons]
      rw [if_neg hk'k, if_neg hpk]
      exact ih
    · simp only [List.map_cons, if_neg hp, recLookup_cons]
      by_cases hk : p.1 = k
      · rw [if_pos hk, if_pos hk]
      · rw [if_neg hk, if_neg hk]
        exact ih

theorem recLookup_append_ne {α : Type} (m : List (String × α))
    (k k' : String) (v : α) (h : k ≠ k') :
    recLookup (m ++ [(k', v)]) k = recLookup m k := by
  have hk'k : ¬ k' = k := fun e => h e.symm
  induction m with
  | nil => simp [recLookup, hk'k]
  | cons p rest ih =>
    rw [List.cons_append, recLookup_cons, recLookup_cons]
    by_cases hp : p.1 = k <;> simp [hp, ih]

theorem recLookup_recInsert_ne {α : Type} (m : List (String × α))
    (k k' : String) (v : α) (h : k ≠ k') :
    recLookup (recInsert m k' v) k = recLookup m k := by
  unfold recInsert
  by_cases hh : recHas m k' = true
  · simpa [hh] using recLookup_map_ne m k k' v h
  · have h0 : recHas m k' = false := by simpa using hh
    simpa [h0] using recLookup_append_ne m k k' v h

theorem recLookup_isSome_recInsert {α : Type} (m : List (String × α))
    (k k' : String) (v : α) (h : (recLookup m k).isSome = true) :
    (recLookup (recInsert m k' v) k).isSome = true := by
  by_cases hk : k = k'
  · subst hk; rw [recLookup_recInsert_self]; rfl
  · rw [recLookup_recInsert_ne m k k' v hk]; exact h

/-- The `interactionCreate` listener never writes the registry tables. -/
theorem dispatch_fst (g : Glimmer) (i : Interaction) : (dispatch g i).1 = g := by
  unfold dispatch
  cases lookupFor g i with
  | none => cases i.kind <;> rfl
  | some c => rfl

/-! ## Claims -/

/-- Claim C1, counterexample to the claim as stated: supplying an option
instance that is of none of the nine listed kinds does *not* fail fast —
`addOption`'s catch-all `else` routes it to the platform's number-option
adder, i.e. it is silently reclassified as a number option (any failure
could only come from the platform library, outside this code). -/
theorem addOption_unlisted_silently_reclassified :
    matchedPlatformKind OptionKind.otherInstance = none ∧
    addOption [] ⟨OptionKind.otherInstance, 0⟩ =
      [(PlatformOptionKind.number, ⟨OptionKind.otherInstance, 0⟩)] :=
  ⟨rfl, rfl⟩

/-- Claim C1, amended: for every command and option, the schema conversion
appends the option unchanged, filed under its matching platform option kind
when the option is one of the nine listed kinds, and under the number kind
(via the catch-all `else`) when it is not; there is no fail-fast check in
this code. -/
theorem addOption_routing :
    ∀ (b : OptList) (o : CommandOption),
      addOption b o =
        b ++ [((matchedPlatformKind o.kind).getD PlatformOptionKind.number, o)] := by
  intro b o
  rcases o with ⟨k, i⟩
  cases k <;> rfl

/-- Claim C2: the schema conversion of a `UserContextMenuCommand` declares
the *message* context-menu command type — the same type every
`MessageContextMenuCommand` declares — not the user type the spec (and the
class's own documentation) requires. -/
theorem contextMenu_type_collapse :
    ∀ (u : UserContextMenuCommand) (m : MessageContextMenuCommand),
      u.toDiscord.type = ApplicationCommandType.Message ∧
      u.toDiscord.type = m.toDiscord.type ∧
      ApplicationCommandType.Message ≠ ApplicationCommandType.User :=
  fun _ _ => ⟨rfl, rfl, by decide⟩

/-- Claim C8: `toSubCommand` followed by `toNormalCommand perm` preserves
name, description, both localization maps and the options list; the
original `memberPermissions` is not restored — the result carries `perm`
when supplied and the default `0` (no requirement) when omitted. -/
theorem toSubCommand_toNormalCommand_roundTrip :
    ∀ (c : NormalCommand) (perm : Option Permissions),
      ((c.toSubCommand).toNormalCommand perm).name = c.name ∧
      ((c.toSubCommand).toNormalCommand perm).description = c.description ∧
      ((c.toSubCommand).toNormalCommand perm).nameLocalizations
        = c.nameLocalizations ∧
      ((c.toSubCommand).toNormalCommand perm).descriptionLocalizations
        = c.descriptionLocalizations ∧
      ((c.toSubCommand).toNormalCommand perm).options = c.options ∧
      ((c.toSubCommand).toNormalCommand perm).memberPermissions
        = perm.getD 0 := by
  intro c perm
  cases perm <;>
    simp [NormalCommand.toSubCommand, SubCommand.toNormalCommand,
      NormalCommand.create, SubCommand.create]

/-- Claim C9: a bare `SubCommand` in a module's command list matches no
branch of `addModules`' classification: it changes no registry table,
raises nothing and emits no diagnostic — while discovery does accept a
command file whose default export is a bare `SubCommand`. -/
theorem addCommands_ignores_bare_subcommand :
    ∀ (g : Glimmer) (pre post : List Cmd) (s : SubCommand),
      addCommands g (pre ++ Cmd.sub s :: post) = addCommands g (pre ++ post) ∧
      addCommand g (Cmd.sub s) = (g, []) ∧
      (∀ (ctx : List FSEntry) (f : String),
        fileToCommand ctx f (JSValue.commandV (Cmd.sub s)) =
          Except.ok (Cmd.sub { s with name := stripExt f })) := by
  intro g pre post s
  refine ⟨?_, rfl, ?_⟩
  · induction pre generalizing g with
    | nil => simp [addCommands, addCommand]
    | cons c pre ih => simp [addCommands, ih]
  · intro ctx f
    simp [fileToCommand, Cmd.withName]

/-- Claim C10: the synthesized category handler resolves the selected
subcommand against the category's current `subcommands` record at
invocation time: whenever `s` is present under name `n` at the moment an
interaction selecting `n` is dispatched (regardless of when it was
inserted — the record starts empty at construction), `s`'s handler runs. -/
theorem categoryHandler_reads_current_mapping :
    ∀ (cat : CategoryCommand) (s : SubCommand) (n : String) (i : Interaction),
      i.subcommandName = some n →
      runCategoryHandler { cat with subcommands := recInsert cat.subcommands n s } i
        = runLeaf s.handler i := by
  intro cat s n i h
  simp [runCategoryHandler, h, recLookup_recInsert_self]

/-- Witness for claim C10 at concrete values: the subcommand was inserted
into a category built with an empty mapping, and dispatching an interaction
selecting it runs its handler. -/
theorem categoryHandler_reads_current_mapping_witness :
    runCategoryHandler
      { catC10 with subcommands := recInsert catC10.subcommands "kick" subC10 }
      iC10 = runLeaf subC10.handler iC10 :=
  categoryHandler_reads_current_mapping catC10 subC10 "kick" iC10 rfl

/-- Claim C3: when the looked-up command's handler rejects, the listener's
`try`/`catch` keeps the rejection from escaping (the dispatch result's
thrown flag is `false` and the registry state is unchanged); the configured
error handler — when present — receives a `GlimmerError` carrying the
failing command and the interaction, and otherwise the failure adds no
observable effect; dispatch of a subsequent interaction is unaffected. -/
theorem dispatch_catches_handler_errors :
    ∀ (g : Glimmer) (i : Interaction) (c : Cmd),
      lookupFor g i = some c →
      (runCmd c i).2 = true →
      dispatch g i =
        (g, (runCmd c i).1 ++
          (if g.hasErrorHandler then [Effect.errorHandled ⟨c, i⟩] else []),
          false) ∧
      (∀ i' : Interaction,
        dispatchAll g [i, i'] =
          (g, (dispatch g i).2.1 ++ (dispatch g i').2.1)) := by
  intro g i c h1 h2
  constructor
  · unfold dispatch
    rw [h1]
    simp [handleCommand, h2]
  · intro i'
    simp [dispatchAll, dispatch_fst]

/-- Witness for claim C3 at concrete values: a registered command whose
handler rejects, dispatched with an error handler configured, then followed
by a second interaction. -/
theorem dispatch_catches_handler_errors_witness :
    dispatch gC3 iC3 =
      (gC3, (runCmd cmdC3 iC3).1 ++
        (if gC3.hasErrorHandler then [Effect.errorHandled ⟨cmdC3, iC3⟩] else []),
        false) ∧
    dispatchAll gC3 [iC3, iC3b] =
      (gC3, (dispatch gC3 iC3).2.1 ++ (dispatch gC3 iC3b).2.1) :=
  ⟨(dispatch_catches_handler_errors gC3 iC3 cmdC3 rfl rfl).1,
    (dispatch_catches_handler_errors gC3 iC3 cmdC3 rfl rfl).2 iC3b⟩

/-- Claim C4: routing misses never throw and never invoke a handler — an
interaction whose command name is absent from the matching table makes the
listener emit only the warning, throw nothing and leave the registry
unchanged; and the synthesized category handler, given a selected
subcommand name with no entry in the category's mapping, emits only the
warning and throws nothing. -/
theorem routing_misses_noop :
    (∀ (g : Glimmer) (i : Interaction),
      i.kind ≠ InteractionKind.otherKind →
      lookupFor g i = none →
      dispatch g i = (g, [Effect.warn (missWarning i)], false)) ∧
    (∀ (cat : CategoryCommand) (i : Interaction) (n : String),
      i.subcommandName = some n →
      recLookup cat.subcommands n = none →
      runCategoryHandler cat i =
        ([Effect.warn (categoryMissWarning n cat.name)], false)) := by
  constructor
  · intro g i hk h
    rcases i with ⟨k, cn, sn⟩
    unfold dispatch
    rw [h]
    cases k
    · rfl
    · rfl
    · rfl
    · exact absurd rfl hk
  · intro cat i n hn h
    simp [runCategoryHandler, hn, h]

/-- Witness for claim C4 at concrete values: an unregistered chat-input
command name, and a category dispatched with an unmapped subcommand. -/
theorem routing_misses_noop_witness :
    dispatch gC4 iC4 = (gC4, [Effect.warn (missWarning iC4)], false) ∧
    runCategoryHandler catC4 iC4b =
      ([Effect.warn (categoryMissWarning "ban" catC4.name)], false) :=
  ⟨routing_misses_noop.1 gC4 iC4 (by decide) rfl,
    routing_misses_noop.2 catC4 iC4b "ban" rfl rfl⟩

/-- Claim C6: every command discovery loads successfully gets its `name`
from the file's base name with the extension stripped, regardless of any
name the default-exported command carried before (`exp` ranges over exports
with arbitrary pre-set names). -/
theorem fileToCommand_assigns_base_name :
    ∀ (ctx : List FSEntry) (fileName : String) (exp : JSValue) (c : Cmd),
      fileToCommand ctx fileName exp = Except.ok c →
      c.name = stripExt fileName := by
  intro ctx f exp c h
  cases exp with
  | commandV c₀ =>
    cases c₀ with
    | category cat =>
      simp only [fileToCommand, Cmd.withName] at h
      split at h
      · exact absurd h (by simp)
      · split at h
        · exact absurd h (by simp)
        · cases h
          rfl
    | normal n =>
      simp only [fileToCommand, Cmd.withName] at h
      cases h
      rfl
    | sub s =>
      simp only [fileToCommand, Cmd.withName] at h
      cases h
      rfl
    | userMenu u =>
      simp only [fileToCommand, Cmd.withName] at h
      cases h
      rfl
    | messageMenu m =>
      simp only [fileToCommand, Cmd.withName] at h
      cases h
      rfl
  | eventHandlerV hh => simp [fileToCommand] at h
  | otherV => simp [fileToCommand] at h

/-- Witness for claim C6 at concrete values: a file `ping.js` whose export
carried the pre-set name `sneaky` yields a command named `ping`. -/
theorem fileToCommand_assigns_base_name_witness :
    Cmd.name cmdC6 = stripExt "ping.js" ∧ stripExt "ping.js" = "ping" :=
  ⟨fileToCommand_assigns_base_name [] "ping.js" expC6 cmdC6
      (by simp [fileToCommand, expC6, cmdC6, Cmd.withName]; rfl),
    rfl⟩

theorem recHas_recInsert_self {α : Type} (m : List (String × α)) (k : String)
    (v : α) : recHas (recInsert m k v) k = true := by
  rw [recHas_eq_isSome, recLookup_recInsert_self]
  rfl

/-- Registering one module holding one command equals one `addCommand`
step. -/
theorem addModules_single_cmd (g : Glimmer) (c : Cmd) :
    addModules g [⟨[c], []⟩] = addCommand g c := by
  simp [addModules, addModule, addCommands]

/-- `addCommand` acts uniformly on both text-input command classes. -/
theorem addCommand_textCmd (g : Glimmer) (c : TextCmd) :
    addCommand g c.toCmd =
      ({ g with textInputCommands := recInsert g.textInputCommands c.name c },
        if recHas g.textInputCommands c.name then
          [Effect.warn (overrideWarnText c.name)]
        else []) := by
  cases c <;> rfl

/-- Claim C7: adding two modules in sequence that each declare a top-level
command of the same name and same target table leaves exactly the later
module's command object in that table (overwrite, never an error), emits
the override diagnostic during the second registration, preserves every key
already present (monotonic growth), and leaves the other tables untouched —
stated for the text-input, user-menu and message-menu tables in turn. -/
theorem addModules_later_wins :
    (∀ (g g₁ g₂ : Glimmer) (e₁ e₂ : List Effect) (c₁ c₂ : TextCmd),
      c₁.name = c₂.name →
      addModules g [⟨[c₁.toCmd], []⟩] = (g₁, e₁) →
      addModules g₁ [⟨[c₂.toCmd], []⟩] = (g₂, e₂) →
      recLookup g₂.textInputCommands c₂.name = some c₂ ∧
      Effect.warn (overrideWarnText c₂.name) ∈ e₂ ∧
      (∀ k, (recLookup g₁.textInputCommands k).isSome = true →
        (recLookup g₂.textInputCommands k).isSome = true) ∧
      g₂.userContextMenuCommands = g₁.userContextMenuCommands ∧
      g₂.messageContextMenuCommands = g₁.messageContextMenuCommands) ∧
    (∀ (g g₁ g₂ : Glimmer) (e₁ e₂ : List Effect)
        (u₁ u₂ : UserContextMenuCommand),
      u₁.name = u₂.name →
      addModules g [⟨[Cmd.userMenu u₁], []⟩] = (g₁, e₁) →
      addModules g₁ [⟨[Cmd.userMenu u₂], []⟩] = (g₂, e₂) →
      recLookup g₂.userContextMenuCommands u₂.name = some u₂ ∧
      Effect.warn (overrideWarnMenu u₂.name) ∈ e₂ ∧
      (∀ k, (recLookup g₁.userContextMenuCommands k).isSome = true →
        (recLookup g₂.userContextMenuCommands k).isSome = true) ∧
      g₂.textInputCommands = g₁.textInputCommands ∧
      g₂.messageContextMenuCommands = g₁.messageContextMenuCommands) ∧
    (∀ (g g₁ g₂ : Glimmer) (e₁ e₂ : List Effect)
        (m₁ m₂ : MessageContextMenuCommand),
      m₁.name = m₂.name →
      addModules g [⟨[Cmd.messageMenu m₁], []⟩] = (g₁, e₁) →
      addModules g₁ [⟨[Cmd.messageMenu m₂], []⟩] = (g₂, e₂) →
      recLookup g₂.messageContextMenuCommands m₂.name = some m₂ ∧
      Effect.warn (overrideWarnMenu m₂.name) ∈ e₂ ∧
      (∀ k, (recLookup g₁.messageContextMenuCommands k).isSome = true →
        (recLookup g₂.messageContextMenuCommands k).isSome = true) ∧
      g₂.textInputCommands = g₁.textInputCommands ∧
      g₂.userContextMenuCommands = g₁.userContextMenuCommands) := by
  refine ⟨?_, ?_, ?_⟩
  · intro g g₁ g₂ e₁ e₂ c₁ c₂ hname h1 h2
    rw [addModules_single_cmd, addCommand_textCmd] at h1 h2
    injection h1 with hg₁ he₁
    injection h2 with hg₂ he₂
    subst hg₁ hg₂ he₂
    refine ⟨?_, ?_, ?_, rfl, rfl⟩
    · simp [recLookup_recInsert_self]
    · have hhas :
          recHas (recInsert g.textInputCommands c₁.name c₁) c₂.name = true := by
        rw [← hname]
        exact recHas_recInsert_self g.textInputCommands c₁.name c₁
      simp [hhas]
    · intro k hk
      exact recLookup_isSome_recInsert _ k c₂.name c₂ hk
  · intro g g₁ g₂ e₁ e₂ u₁ u₂ hname h1 h2
    rw [addModules_single_cmd] at h1 h2
    simp only [addCommand] at h1 h2
    injection h1 with hg₁ he₁
    injection h2 with hg₂ he₂
    subst hg₁ hg₂ he₂
    refine ⟨?_, ?_, ?_, rfl, rfl⟩
    · simp [recLookup_recInsert_self]
    · have hhas :
          recHas (recInsert g.userContextMenuCommands u₁.name u₁) u₂.name
            = true := by
        rw [← hname]
        exact recHas_recInsert_self g.userContextMenuCommands u₁.name u₁
      simp [hhas]
    · intro k hk
      exact recLookup_isSome_recInsert _ k u₂.name u₂ hk
  · intro g g₁ g₂ e₁ e₂ m₁ m₂ hname h1 h2
    rw [addModules_single_cmd] at h1 h2
    simp only [addCommand] at h1 h2
    injection h1 with hg₁ he₁
    injection h2 with hg₂ he₂
    subst hg₁ hg₂ he₂
    refine ⟨?_, ?_, ?_, rfl, rfl⟩
    · simp [recLookup_recInsert_self]
    · have hhas :
          recHas (recInsert g.messageContextMenuCommands m₁.name m₁) m₂.name
            = true := by
        rw [← hname]
        exact recHas_recInsert_self g.messageContextMenuCommands m₁.name m₁
      simp [hhas]
    · intro k hk
      exact recLookup_isSome_recInsert _ k m₂.name m₂ hk

/-- Witness for claim C7 at concrete values: two modules with a `greet`
text-input command, two with a `profile` user-menu command, two with a
`report` message-menu command; each second registration wins and warns. -/
theorem addModules_later_wins_witness :
    (recLookup ((addModules (addModules gC7 [⟨[cmdC7a.toCmd], []⟩]).1
        [⟨[cmdC7b.toCmd], []⟩]).1).textInputCommands cmdC7b.name
      = some cmdC7b ∧
      Effect.warn (overrideWarnText cmdC7b.name) ∈
        (addModules (addModules gC7 [⟨[cmdC7a.toCmd], []⟩]).1
          [⟨[cmdC7b.toCmd], []⟩]).2) ∧
    (recLookup ((addModules (addModules gC7 [⟨[Cmd.userMenu userC7a], []⟩]).1
        [⟨[Cmd.userMenu userC7b], []⟩]).1).userContextMenuCommands userC7b.name
      = some userC7b ∧
      Effect.warn (overrideWarnMenu userC7b.name) ∈
        (addModules (addModules gC7 [⟨[Cmd.userMenu userC7a], []⟩]).1
          [⟨[Cmd.userMenu userC7b], []⟩]).2) ∧
    (recLookup ((addModules (addModules gC7 [⟨[Cmd.messageMenu msgC7a], []⟩]).1
        [⟨[Cmd.messageMenu msgC7b], []⟩]).1).messageContextMenuCommands
        msgC7b.name = some msgC7b ∧
      Effect.warn (overrideWarnMenu msgC7b.name) ∈
        (addModules (addModules gC7 [⟨[Cmd.messageMenu msgC7a], []⟩]).1
          [⟨[Cmd.messageMenu msgC7b], []⟩]).2) :=
  ⟨(fun h => ⟨h.1, h.2.1⟩)
      (addModules_later_wins.1 gC7 _ _ _ _ cmdC7a cmdC7b rfl rfl rfl),
    (fun h => ⟨h.1, h.2.1⟩)
      (addModules_later_wins.2.1 gC7 _ _ _ _ userC7a userC7b rfl rfl rfl),
    (fun h => ⟨h.1, h.2.1⟩)
      (addModules_later_wins.2.2 gC7 _ _ _ _ msgC7a msgC7b rfl rfl rfl)⟩

/-- A successful `fileToCommand` returning a `SubCommand` instance can only
come from a default export that was a `SubCommand` instance. -/
theorem fileToCommand_ok_sub {ctx : List FSEntry} {f : String} {v : JSValue}
    {s : SubCommand} (h : fileToCommand ctx f v = Except.ok (Cmd.sub s)) :
    ∃ s₀, v = JSValue.commandV (Cmd.sub s₀) := by
  cases v with
  | commandV c₀ =>
    cases c₀ with
    | sub s₀ => exact ⟨s₀, rfl⟩
    | category cat =>
      exfalso
      simp only [fileToCommand, Cmd.withName] at h
      split at h
      · exact absurd h (by simp)
      · split at h
        · exact absurd h (by simp)
        · exact absurd h (by simp)
    | normal n => simp [fileToCommand, Cmd.withName] at h
    | userMenu u => simp [fileToCommand, Cmd.withName] at h
    | messageMenu m => simp [fileToCommand, Cmd.withName] at h
  | eventHandlerV hh => simp [fileToCommand] at h
  | otherV => simp [fileToCommand] at h

/-- If some entry of a category subdirectory is a non-`SubCommand` file,
the subcommand loop rejects, whatever the accumulated record is. -/
theorem subcommandLoop_err (ctx : List FSEntry) :
    ∀ (remaining : List FSEntry) (acc : List (String × SubCommand)),
      remaining.any subEntryBad = true →
      isErr (subcommandLoop ctx remaining acc) = true := by
  intro remaining
  induction remaining with
  | nil => intro acc h; simp at h
  | cons e rest ih =>
    intro acc h
    cases e with
    | dir d des => simp [subcommandLoop, isErr]
    | file f v =>
      rw [subcommandLoop]
      cases hr : fileToCommand ctx f v with
      | error err => simp [isErr]
      | ok c =>
        cases c with
        | sub s =>
          obtain ⟨s₀, hv⟩ := fileToCommand_ok_sub hr
          have h' : rest.any subEntryBad = true := by
            subst hv
            simpa [subEntryBad] using h
          exact ih (recInsert acc s.name s) h'
        | normal n => simp [isErr]
        | category cat => simp [isErr]
        | userMenu u => simp [isErr]
        | messageMenu m => simp [isErr]

/-- A malformed commands-area file makes `fileToCommand` reject. -/
theorem entryMalformed_err (ctx : List FSEntry) (f : String) (v : JSValue)
    (h : entryMalformed ctx (FSEntry.file f v) = true) :
    isErr (fileToCommand ctx f v) = true := by
  cases v with
  | otherV => simp [fileToCommand, isErr]
  | eventHandlerV hh => simp [fileToCommand, isErr]
  | commandV c₀ =>
    cases c₀ with
    | category cat =>
      simp only [entryMalformed] at h
      simp only [fileToCommand, Cmd.withName]
      cases hf : findDir ctx (stripExt f) with
      | none => simp [isErr]
      | some sub =>
        rw [hf] at h
        cases hs : subcommandLoop sub sub cat.subcommands with
        | error e => simp [hs, isErr]
        | ok subs =>
          have := subcommandLoop_err sub sub cat.subcommands h
          rw [hs] at this
          simp [isErr] at this
    | normal n => simp [entryMalformed] at h
    | sub s => simp [entryMalformed] at h
    | userMenu u => simp [entryMalformed] at h
    | messageMenu m => simp [entryMalformed] at h

/-- A malformed file among a commands area's entries makes the command loop
reject. -/
theorem commandLoop_err (ctx : List FSEntry) :
    ∀ (remaining : List FSEntry),
      remaining.any (entryMalformed ctx) = true →
      isErr (commandLoop ctx remaining) = true := by
  intro remaining
  induction remaining with
  | nil => intro h; simp at h
  | cons e rest ih =>
    intro h
    cases e with
    | dir d des => simp [commandLoop, isErr]
    | file f v =>
      rw [commandLoop]
      cases hr : fileToCommand ctx f v with
      | error err => simp [isErr]
      | ok c =>
        have hm : entryMalformed ctx (FSEntry.file f v) = false := by
          cases hb : entryMalformed ctx (FSEntry.file f v)
          · rfl
          · have := entryMalformed_err ctx f v hb
            rw [hr] at this
            simp [isErr] at this
        have h' : rest.any (entryMalformed ctx) = true := by
          simpa [hm] using h
        cases hrest : commandLoop ctx rest with
        | error e2 => simp [isErr]
        | ok cs =>
          have := ih h'
          rw [hrest] at this
          simp [isErr] at this

/-- A mismatched event-handler file among the events area's entries makes
the event loop reject. -/
theorem eventLoop_err :
    ∀ (remaining : List FSEntry),
      remaining.any eventEntryBad = true →
      isErr (eventLoop remaining) = true := by
  intro remaining
  induction remaining with
  | nil => intro h; simp at h
  | cons e rest ih =>
    intro h
    cases e with
    | dir d des => simp [eventLoop, isErr]
    | file f v =>
      rw [eventLoop]
      cases hr : fileToEventHandler f v with
      | error err => simp [isErr]
      | ok hh =>
        have hm : eventEntryBad (FSEntry.file f v) = false := by
          cases v with
          | eventHandlerV h₀ =>
            simp only [fileToEventHandler] at hr
            split at hr
            · exact absurd hr (by simp)
            · rename_i hcond
              have heq : h₀.eventType = stripExt f := by
                simpa using hcond
              simp [eventEntryBad, heq]
          | commandV c => simp [fileToEventHandler] at hr
          | otherV => simp [fileToEventHandler] at hr
        have h' : rest.any eventEntryBad = true := by
          simpa [hm] using h
        cases hrest : eventLoop rest with
        | error e2 => simp [isErr]
        | ok hs =>
          have := ih h'
          rw [hrest] at this
          simp [isErr] at this

/-- A commands area whose load succeeded contained no malformed file. -/
theorem area_ok_not_malformed (area : Option (List FSEntry)) (nm : String)
    (cs : List Cmd)
    (h : getCommandsFromSubdirectory area nm = Except.ok cs) :
    commandsAreaMalformed area = false := by
  cases area with
  | none => rfl
  | some es =>
    simp only [getCommandsFromSubdirectory] at h
    cases hb : (jsFilter es).any (entryMalformed es)
    · simp [commandsAreaMalformed, hb]
    · have := commandLoop_err es (jsFilter es) hb
      rw [h] at this
      simp [isErr] at this

/-- Claim C5: discovery is all-or-nothing — for every root directory
containing at least one malformed file (export not a `Command`, subcommand
file not a `SubCommand`, category with a missing subcommand subdirectory,
or event-handler file whose identifier differs from its base name),
`Module.fromDirectory` rejects with a single error (whose constructors each
name the offending file or directory) and never returns a `Module`, partial
or otherwise. -/
theorem fromDirectory_allOrNothing :
    ∀ (fs : FSRoot), malformedRoot fs = true →
      (∀ m, Module.fromDirectory fs ≠ Except.ok m) ∧
      (∃ e, Module.fromDirectory fs = Except.error e) := by
  intro fs h
  have herr : isErr (Module.fromDirectory fs) = true := by
    unfold Module.fromDirectory
    cases h1 : getCommandsFromSubdirectory fs.textInput "commands/text-input" with
    | error e => simp [isErr]
    | ok t =>
      cases h2 : getCommandsFromSubdirectory fs.messageMenu "commands/message-menu" with
      | error e => simp [isErr]
      | ok mm =>
        cases h3 : getCommandsFromSubdirectory fs.userMenu "commands/user-menu" with
        | error e => simp [isErr]
        | ok um =>
          cases hev : fs.events with
          | none => simp [isErr]
          | some es =>
            cases h4 : eventLoop (jsFilter es) with
            | error e => simp [h4, isErr]
            | ok evs =>
              exfalso
              have hA := area_ok_not_malformed fs.textInput _ t h1
              have hB := area_ok_not_malformed fs.messageMenu _ mm h2
              have hC := area_ok_not_malformed fs.userMenu _ um h3
              have hD : eventsAreaMalformed fs.events = false := by
                rw [hev]
                cases hb : (jsFilter es).any eventEntryBad
                · simp [eventsAreaMalformed, hb]
                · have := eventLoop_err (jsFilter es) hb
                  rw [h4] at this
                  simp [isErr] at this
              rw [malformedRoot, hA, hB, hC, hD] at h
              simp at h
  constructor
  · intro m hm
    rw [hm] at herr
    simp [isErr] at herr
  · cases hd : Module.fromDirectory fs with
    | error e => exact ⟨e, rfl⟩
    | ok m =>
      rw [hd] at herr
      simp [isErr] at herr

/-- Witness for claim C5 at a concrete root: the events area holds
`ready.js` exporting a handler declared for `messageCreate`, so discovery
rejects and returns no `Module`. -/
theorem fromDirectory_allOrNothing_witness :
    (Module.fromDirectory fsC5 ≠ Except.ok ⟨[], []⟩) ∧
    (∃ e, Module.fromDirectory fsC5 = Except.error e) :=
  ⟨(fromDirectory_allOrNothing fsC5 rfl).1 ⟨[], []⟩,
    (fromDirectory_allOrNothing fsC5 rfl).2⟩

end Glimmer
